import Mathlib

/-!
Verification of the attachment-detection and status-reconciliation logic of the
gmail-rechnungs-manager browser extension.

The embedding follows the TypeScript sources:
* `src/types/api.ts` — data model (`TransferredEmail`, storage shape, response types);
* the storage wrapper (`storage.*` methods, modelled as pure functions over a
  `StorageState` record standing for the contents of `chrome.storage.local`);
* the background service worker message handlers (`handleCheckStatus`,
  `handleCheckStatusByFilename`, `handleMarkTransferred`, `handleSyncBoringTaxFiles`);
* `src/content/gmail_content.ts` — the content-script scanner
  (`isPdfAttachment`, `getAttachmentFileName`, `extractEmailId`,
  `createUploadButton`, `createStatusBadge`, `processAttachment`).

JavaScript strings are modelled as Lean `String`s, with the JS operations
(`toLowerCase`, `trim`, `includes`, `endsWith`, the two regular expressions)
implemented explicitly over the underlying `List Char` so that every
definition is executable and kernel-reducible.  DOM queries inside one
attachment element are modelled as the record fields of `AttachmentElem`
(each field is the result of the corresponding query, `none` when the query
finds nothing); the page-wide collection of UI nodes injected by the
extension is modelled as a `List UINode`.  Asynchronous message round-trips
are modelled by passing the response (or a transport failure, as
`Except.error`) into the function that awaits it.
-/

namespace GRM

/-! ## JS string primitives -/

/-- Model of `startsWithList p t` : does `t` start with `p`?  (List-level helper.) -/
def startsWithList : List Char → List Char → Bool
  | [], _ => true
  | _ :: _, [] => false
  | p :: ps, t :: ts => p == t && startsWithList ps ts

/-- Model of `hasSubList pat t` : does `pat` occur contiguously in `t`?
Models JS `String.prototype.includes` at the character-list level. -/
def hasSubList (pat : List Char) : List Char → Bool
  | [] => startsWithList pat []
  | c :: ts => startsWithList pat (c :: ts) || hasSubList pat ts

/-- JS `s.includes(pat)`. -/
def strIncludes (s pat : String) : Bool :=
  hasSubList pat.data s.data

/-- JS `s.endsWith(pat)`. -/
def strEndsWith (s pat : String) : Bool :=
  startsWithList pat.data.reverse s.data.reverse

/-- JS `s.toLowerCase()` (character-wise lowering). -/
def lowerStr (s : String) : String :=
  String.mk (s.data.map Char.toLower)

/-- JS `s.trim()` : strip leading and trailing whitespace. -/
def trimChars (l : List Char) : List Char :=
  ((l.dropWhile Char.isWhitespace).reverse.dropWhile Char.isWhitespace).reverse

/-- JS `s.trim()` on strings. -/
def jsTrim (s : String) : String :=
  String.mk (trimChars s.data)

/-- Model of `fileName.toLowerCase().trim()` — the normalisation used by
`storage.isFileInBoringTax` and `storage.isFileTransferredByName`. -/
def normalizeName (s : String) : String :=
  jsTrim (lowerStr s)

/-! ## Data model (`src/types/api.ts`) -/

/-- Model of `TransferredEmail` record (`src/types/api.ts`). -/
structure TransferredEmail where
  emailId : String
  fileName : String
  uploadedFileId : String
  transferDate : String
  subject : Option String
deriving DecidableEq

/-- Contents of `chrome.storage.local` (`ExtendedStorageData` in the storage
wrapper: settings, transfer history, cached boring.tax file list). -/
structure StorageState where
  apiKey : String
  orgId : String
  transferredEmails : List TransferredEmail
  boringTaxFiles : List String
  boringTaxLastSync : String
deriving DecidableEq

/-- Model of `CheckStatusResponse` (`src/types/api.ts`). -/
structure CheckStatusResponse where
  isTransferred : Bool
  transferInfo : Option TransferredEmail
deriving DecidableEq

/-- Model of `CheckStatusByFilenameResponse` (`src/types/api.ts`). -/
structure CheckStatusByFilenameResponse where
  isInBoringTax : Bool
  isTransferredByExtension : Bool
  transferInfo : Option TransferredEmail
deriving DecidableEq

/-- Model of `GenericResponse` (`src/types/api.ts`). -/
structure GenericResponse where
  success : Bool
  error : Option String
deriving DecidableEq

/-! ## Storage wrapper (pure model of the `storage` object) -/

/-- Model of `storage.getSettings().isConfigured` : `Boolean(apiKey && orgId)` —
both strings non-empty. -/
def isConfigured (st : StorageState) : Bool :=
  !(st.apiKey == "") && !(st.orgId == "")

/-- Model of `storage.isFileInBoringTax(fileName)` : normalized membership of
`fileName` in the cached boring.tax file list
(`fileNames.some(f => f.toLowerCase().trim() === normalizedFileName)`). -/
def isFileInBoringTax (st : StorageState) (fileName : String) : Bool :=
  st.boringTaxFiles.any (fun f => normalizeName f == normalizeName fileName)

/-- Model of `storage.isFileTransferredByName(fileName)` : first transfer record whose
`fileName` matches under normalisation, else `none`. -/
def isFileTransferredByName (st : StorageState) (fileName : String) :
    Option TransferredEmail :=
  st.transferredEmails.find? (fun e => normalizeName e.fileName == normalizeName fileName)

/-- Model of `storage.getTransferredEmail(emailId)` : first transfer record with this
`emailId`, else `none`. -/
def getTransferredEmail (st : StorageState) (emailId : String) :
    Option TransferredEmail :=
  st.transferredEmails.find? (fun e => e.emailId == emailId)

/-- The list-level core of `storage.addTransferredEmail`: replace the record
at the first index whose `emailId` matches (`findIndex` + assignment), else
push at the end. -/
def addTransferredEmail (l : List TransferredEmail) (email : TransferredEmail) :
    List TransferredEmail :=
  match l.findIdx? (fun e => e.emailId == email.emailId) with
  | some i => l.set i email
  | none => l ++ [email]

/-! ## Background service worker handlers -/

/-- Model of `handleCheckStatus(emailId)`. -/
def handleCheckStatus (st : StorageState) (emailId : String) : CheckStatusResponse :=
  let transferInfo := getTransferredEmail st emailId
  { isTransferred := transferInfo.isSome
    transferInfo := transferInfo }

/-- Model of `handleCheckStatusByFilename(fileName)` : reports the file as in
boring.tax when the cached remote list matches **or** a local transfer
record matches by name. -/
def handleCheckStatusByFilename (st : StorageState) (fileName : String) :
    CheckStatusByFilenameResponse :=
  let transferInfo := isFileTransferredByName st fileName
  let inBT := isFileInBoringTax st fileName
  { isInBoringTax := inBT || transferInfo.isSome
    isTransferredByExtension := transferInfo.isSome
    transferInfo := transferInfo }

/-- Model of `handleMarkTransferred(payload)` : upsert into the history, report
success, and return the updated storage state. -/
def handleMarkTransferred (st : StorageState) (payload : TransferredEmail) :
    GenericResponse × StorageState :=
  (⟨true, none⟩,
   { st with transferredEmails := addTransferredEmail st.transferredEmails payload })

/-- Model of `[...new Set(list)]` : deduplicate keeping the first occurrence of each
element, preserving order (JS `Set` insertion-order semantics). -/
def dedupJs (l : List String) : List String :=
  l.foldl (fun acc x => if acc.contains x then acc else acc ++ [x]) []

/-- Model of `handleSyncBoringTaxFiles()`.  `remoteFileNames` is the list returned by
`apiClient.getFileNames()` (a network result, passed in); `history` is the
list returned by `storage.getTransferredEmails()`, which sorts the stored
records by parsed `transferDate` — the comparator is environment-dependent,
so the sorted list is passed in and constrained to be a permutation of the
stored history in the theorems; `now` is the ISO timestamp that
`storage.saveBoringTaxFiles` stores as the sync time.  On success the stored
file list is replaced wholesale by the deduplicated union. -/
def handleSyncBoringTaxFiles (st : StorageState) (remoteFileNames : List String)
    (history : List TransferredEmail) (now : String) :
    GenericResponse × StorageState :=
  if isConfigured st then
    let allFileNames := dedupJs (remoteFileNames ++ history.map (fun e => e.fileName))
    (⟨true, none⟩,
     { st with boringTaxFiles := allFileNames, boringTaxLastSync := now })
  else
    (⟨false, some "API nicht konfiguriert"⟩, st)

/-! ## Content script: attachment element model (`gmail_content.ts`)

One candidate attachment element, as seen through the five signals the
scanner queries.  Each `Option` field is `none` when the corresponding DOM
query finds no element / the attribute is absent (the optional-chaining
short-circuit in the source); `textContent` of the element itself collapses
`null` to `""` exactly as `attachment.textContent || ''` does. -/
structure AttachmentElem where
  /-- Model of `attachment.querySelector(SELECTORS.ATTACHMENT_NAME)?.textContent` -/
  nameText : Option String
  /-- Model of `attachment.getAttribute('data-tooltip')` -/
  tooltip : Option String
  /-- Model of `attachment.getAttribute('title')` -/
  title : Option String
  /-- Model of `attachment.getAttribute('aria-label')` -/
  ariaLabel : Option String
  /-- Model of `attachment.textContent || ''` -/
  textContent : String
deriving DecidableEq

/-- Character class `[\w\-_.]` of the filename-scan regex
(`\w` = ASCII alphanumeric or underscore). -/
def isPdfNameChar (c : Char) : Bool :=
  c.isAlphanum || c == '_' || c == '-' || c == '.'

/-- Does the list start with `".pdf"`, the suffix literal `\.pdf` of the
regex, with `pdf` matched case-insensitively (`/i` flag)? -/
def hasPdfAt : List Char → Bool
  | c0 :: c1 :: c2 :: c3 :: _ =>
      c0 == '.' && c1.toLower == 'p' && c2.toLower == 'd' && c3.toLower == 'f'
  | _ => false

/-- Greedy split point for a match of `[\w\-_.]+\.pdf` inside the maximal
run `r` of class characters: the largest `j ≥ 1` such that `".pdf"` (with
`pdf` case-insensitive) starts at offset `j` of `r`. -/
def greedyJ (r : List Char) : Option Nat :=
  (List.range r.length).reverse.find? (fun j => decide (1 ≤ j) && hasPdfAt (r.drop j))

/-- Attempt to match `/[\w\-_.]+\.pdf/i` at the start of `l`; returns the
matched characters. -/
def matchPdfAt (l : List Char) : Option (List Char) :=
  let r := l.takeWhile isPdfNameChar
  match greedyJ r with
  | some j => some (l.take (j + 4))
  | none => none

/-- Model of `allText.match(/[\w\-_.]+\.pdf/i)` : leftmost match, greedy. -/
def pdfMatch : List Char → Option (List Char)
  | [] => none
  | c :: rest =>
      match matchPdfAt (c :: rest) with
      | some m => some m
      | none => pdfMatch rest

/-- Model of `isPdfAttachment(attachment)` : the five-signal classification cascade
(name text, tooltip, title, whole text content, aria-label), each signal
lowercased, matching a `.pdf` suffix or substring. -/
def isPdfAttachment (a : AttachmentElem) : Bool :=
  let fileName := lowerStr (a.nameText.getD "")
  if strEndsWith fileName ".pdf" then true
  else
    let tooltip := lowerStr (a.tooltip.getD "")
    if strEndsWith tooltip ".pdf" || strIncludes tooltip ".pdf" then true
    else
      let title := lowerStr (a.title.getD "")
      if strEndsWith title ".pdf" || strIncludes title ".pdf" then true
      else
        let allText := lowerStr a.textContent
        if strIncludes allText ".pdf" then true
        else
          let ariaLabel := lowerStr (a.ariaLabel.getD "")
          strEndsWith ariaLabel ".pdf" || strIncludes ariaLabel ".pdf"

/-- Did this optional signal yield a string containing `".pdf"`
(case-sensitive `includes`, as in `getAttachmentFileName`)? -/
def optHasPdf : Option String → Bool
  | some t => strIncludes t ".pdf"
  | none => false

/-- Model of `getAttachmentFileName(attachment)` : extraction cascade — name text,
tooltip, title, aria-label (each taken trimmed when it contains `".pdf"`),
then the regex scan of the raw text content, then the constant placeholder
`"document.pdf"`. -/
def getAttachmentFileName (a : AttachmentElem) : String :=
  if optHasPdf a.nameText then jsTrim (a.nameText.getD "")
  else if optHasPdf a.tooltip then jsTrim (a.tooltip.getD "")
  else if optHasPdf a.title then jsTrim (a.title.getD "")
  else if optHasPdf a.ariaLabel then jsTrim (a.ariaLabel.getD "")
  else
    match pdfMatch a.textContent.data with
    | some m => String.mk m
    | none => "document.pdf"

/-! ## Content script: email-id extraction -/

/-- Model of `hash.match(/#[^\/]+\/([^\/]+)/)` : scan left to right for a `#`
followed by one or more non-slash characters, a `/`, and a captured
non-empty greedy run of non-slash characters. -/
def matchEmailIdRegex (s : String) : Option String :=
  go s.data
where
  /-- Try the pattern at every position. -/
  go : List Char → Option String
    | [] => none
    | '#' :: rest =>
        let r1 := rest.takeWhile (fun c => !(c == '/'))
        match r1 with
        | [] => go rest
        | _ :: _ =>
            match rest.drop r1.length with
            | '/' :: rest2 =>
                let r2 := rest2.takeWhile (fun c => !(c == '/'))
                match r2 with
                | [] => go rest
                | _ :: _ => some (String.mk r2)
            | _ => go rest
    | _ :: rest => go rest

/-- Model of `hash.replace(/[^a-zA-Z0-9]/g, '')`. -/
def sanitizeHash (s : String) : String :=
  String.mk (s.data.filter Char.isAlphanum)

/-- Model of `extractEmailId()`.  Inputs: the URL fragment; the result of
`document.querySelector(SELECTORS.MESSAGE_CONTAINER)` — `none` when no
container matches, otherwise `some v` where `v` is the (nullable) value of
its `data-message-id` attribute (the selector also matches elements that
only carry `data-legacy-message-id`, whose `data-message-id` is `none`);
and `Date.now()` for the generated fallback.  Returns the captured URL id,
else the container attribute (possibly `none`), else the generated id. -/
def extractEmailId (hash : String) (messageContainer : Option (Option String))
    (now : Nat) : Option String :=
  match matchEmailIdRegex hash with
  | some id => some id
  | none =>
      match messageContainer with
      | some dataMessageId => dataMessageId
      | none => some ("gmail-" ++ toString now ++ "-" ++ sanitizeHash hash)

/-! ## Content script: injected UI nodes -/

/-- An injected DOM node, reduced to the data the scanner reads back:
its class, its `setAttribute` pairs, and its `title` property.  The inner
SVG markup, click handlers, and locale-formatted dates are irrelevant to
the dedup/reconciliation logic and are not modelled (the `title` of a badge
keeps the raw ISO date instead of the `de-DE` rendering). -/
structure UINode where
  cls : String
  attrs : List (String × String)
  title : String
deriving DecidableEq

/-- Model of `node.getAttribute(k)` on an injected node. -/
def getAttr (n : UINode) (k : String) : Option String :=
  (n.attrs.find? (fun p => p.1 == k)).map (fun p => p.2)

/-- Model of `createUploadButton(attachment, emailId, subject)` : class
`grm-upload-btn`, with `data-filename` (the extracted filename),
`data-email-id`, and `aria-label` set via `setAttribute` (the `subject`
only feeds the later upload payload and is not stored on the node). -/
def createUploadButton (a : AttachmentElem) (emailId : String) : UINode :=
  { cls := "grm-upload-btn"
    attrs := [("data-filename", getAttachmentFileName a),
              ("data-email-id", emailId),
              ("aria-label", "Rechnung an Buchhaltung senden")]
    title := "An Buchhaltung senden" }

/-- Model of `createStatusBadge(transferDate)` : class `grm-status-badge`; no
`setAttribute` call at all — only the `title` property is set. -/
def createStatusBadge (transferDate : Option String) : UINode :=
  { cls := "grm-status-badge"
    attrs := []
    title :=
      match transferDate with
      | some d => "Übertragen am " ++ d
      | none => "Bereits an Buchhaltung übertragen" }

/-! ## Content script: processAttachment -/

/-- The node-local state of one candidate element: its signals, whether its
class list already carries the `grm-processed` marker, and whether a
`querySelector` for `.grm-upload-btn` / `.grm-status-badge` inside it finds
a node. -/
structure AttachmentNode where
  elem : AttachmentElem
  processed : Bool
  hasInjected : Bool
deriving DecidableEq

/-- Model of `document.querySelectorAll('.grm-upload-btn')` followed by reading each
button's `data-filename` attribute (buttons without the attribute compare
unequal to every filename and are dropped). -/
def existingButtonFilenames (page : List UINode) : List String :=
  (page.filter (fun n => n.cls == "grm-upload-btn")).filterMap
    (fun n => getAttr n "data-filename")

/-- The two UI affordances the reconciler can render. -/
inductive RenderOutcome where
  | badge : RenderOutcome
  | button : RenderOutcome
deriving DecidableEq

/-- Model of `filenameStatus.isInBoringTax || emailStatus.isTransferred` → badge,
else button (the render decision on successful status queries). -/
def statusOutcome (fs : CheckStatusByFilenameResponse) (es : CheckStatusResponse) :
    RenderOutcome :=
  if fs.isInBoringTax || es.isTransferred then RenderOutcome.badge
  else RenderOutcome.button

/-- The render decision evaluated against a storage state: the two message
round-trips answered by the background handlers. -/
def reconcileOutcome (st : StorageState) (fileName emailId : String) :
    RenderOutcome :=
  statusOutcome (handleCheckStatusByFilename st fileName) (handleCheckStatus st emailId)

/-- JS `a?.x || b?.x` on optional date strings: the first operand wins
unless it is absent or empty. -/
def jsOrDate (a b : Option String) : Option String :=
  match a with
  | some s => if s == "" then b else some s
  | none => b

/-- The node rendered in the success branch of `processAttachment`. -/
def renderNode (a : AttachmentElem) (emailId : String)
    (fs : CheckStatusByFilenameResponse) (es : CheckStatusResponse) : UINode :=
  match statusOutcome fs es with
  | RenderOutcome.badge =>
      createStatusBadge
        (jsOrDate (fs.transferInfo.map (fun t => t.transferDate))
                  (es.transferInfo.map (fun t => t.transferDate)))
  | RenderOutcome.button => createUploadButton a emailId

/-- Model of `processAttachment(attachment)`.  In source order: skip if the node is
marked processed; if a button/badge already sits inside it, mark processed
and skip; skip non-PDFs; extract the filename and skip (marking processed)
when an existing upload button elsewhere carries the same `data-filename`;
mark the node processed; extract the email id, skipping when it is `null`;
await the two status queries (`query` is their combined result — `.error`
when either round-trip rejects) and insert a badge or a button, with the
upload button as the catch-all on failure.  Returns the updated node marker
and the page's injected-node list (insertion appends the new node). -/
def processAttachment (node : AttachmentNode) (page : List UINode)
    (hash : String) (messageContainer : Option (Option String)) (now : Nat)
    (query : Except String (CheckStatusByFilenameResponse × CheckStatusResponse)) :
    AttachmentNode × List UINode :=
  if node.processed then (node, page)
  else if node.hasInjected then ({ node with processed := true }, page)
  else if !(isPdfAttachment node.elem) then (node, page)
  else
    let fileName := getAttachmentFileName node.elem
    if (existingButtonFilenames page).contains fileName then
      ({ node with processed := true }, page)
    else
      let marked := { node with processed := true }
      match extractEmailId hash messageContainer now with
      | none => (marked, page)
      | some emailId =>
          match query with
          | Except.ok (fs, es) => (marked, page ++ [renderNode node.elem emailId fs es])
          | Except.error _ => (marked, page ++ [createUploadButton node.elem emailId])

/-! ## Spec-side definitions (for refinement comparisons) -/

/-- The specification's remote-set membership predicate (spec §4.2):
"normalized membership test against `KnownRemoteFileSet` ∪ locally known
filenames". -/
def isInRemoteSet (st : StorageState) (fileName : String) : Bool :=
  (st.boringTaxFiles ++ st.transferredEmails.map (fun e => e.fileName)).any
    (fun g => normalizeName g == normalizeName fileName)

/-- Modelled from the spec: filename extraction "using the same cascade
order" as PDF classification, i.e. name text, tooltip, title, raw text
content, then aria-label — for comparison against the source's
`getAttachmentFileName`, whose last two steps are ordered aria-label first. -/
def fileNameInClassificationOrder (a : AttachmentElem) : String :=
  if optHasPdf a.nameText then jsTrim (a.nameText.getD "")
  else if optHasPdf a.tooltip then jsTrim (a.tooltip.getD "")
  else if optHasPdf a.title then jsTrim (a.title.getD "")
  else
    match pdfMatch a.textContent.data with
    | some m => String.mk m
    | none =>
        if optHasPdf a.ariaLabel then jsTrim (a.ariaLabel.getD "")
        else "document.pdf"

/-! ## Shared helper lemmas -/

/-- Option-valued search succeeds exactly when the Boolean search does. -/
theorem find?_isSome_eq_any {α : Type} (p : α → Bool) (l : List α) :
    (l.find? p).isSome = l.any p := by
  induction l with
  | nil => rfl
  | cons x xs ih =>
      simp only [List.find?, List.any]
      cases h : p x <;> simp [h, ih]

/-- A badge-or-button conditional renders a badge exactly when its condition
holds. -/
theorem ifOutcome_eq_badge (c : Bool) :
    ((if c then RenderOutcome.badge else RenderOutcome.button) = RenderOutcome.badge)
      ↔ c = true := by
  cases c <;> simp

/-! ## C10 -/

/-- C10: for every filename and storage state, the check-status-by-filename
response satisfies `isTransferredByExtension → isInBoringTax` — a local
transfer record matching by name forces the file to be reported as known
remotely, regardless of the cached remote file set. -/
theorem c10_transferred_by_name_implies_in_boring_tax
    (st : StorageState) (fileName : String)
    (h : (handleCheckStatusByFilename st fileName).isTransferredByExtension = true) :
    (handleCheckStatusByFilename st fileName).isInBoringTax = true := by
  simp only [handleCheckStatusByFilename] at h ⊢
  simp [h]

/-- Witness for C10: a state whose cached remote set is empty but whose
history holds a record named `a.pdf` reports `a.pdf` as in boring.tax. -/
theorem c10_witness :
    (handleCheckStatusByFilename
        ⟨"", "", [⟨"E2", "a.pdf", "id1", "2024-01-01", none⟩], [], ""⟩
        "a.pdf").isInBoringTax = true :=
  c10_transferred_by_name_implies_in_boring_tax
    ⟨"", "", [⟨"E2", "a.pdf", "id1", "2024-01-01", none⟩], [], ""⟩ "a.pdf" (by decide)

/-! ## C4 -/

/-- C4: remote-set membership is invariant under case and leading/trailing
whitespace changes, on the queried filename (two queries with equal
normalisation give equal results), and on the stored filenames (two stored
lists with pointwise-equal normalisations give equal results); in
particular, querying `"Invoice.PDF"` equals querying `" invoice.pdf "`,
both for `isFileInBoringTax` and for the spec's `isInRemoteSet`. -/
theorem c4_normalization_invariance :
    (∀ (st : StorageState) (q1 q2 : String), normalizeName q1 = normalizeName q2 →
        isFileInBoringTax st q1 = isFileInBoringTax st q2)
    ∧ (∀ (st1 st2 : StorageState) (q : String),
        st1.boringTaxFiles.map normalizeName = st2.boringTaxFiles.map normalizeName →
        isFileInBoringTax st1 q = isFileInBoringTax st2 q)
    ∧ (∀ st : StorageState,
        isFileInBoringTax st "Invoice.PDF" = isFileInBoringTax st " invoice.pdf ")
    ∧ (∀ st : StorageState,
        isInRemoteSet st "Invoice.PDF" = isInRemoteSet st " invoice.pdf ") := by
  have hq : ∀ (l : List String) (q1 q2 : String), normalizeName q1 = normalizeName q2 →
      (l.any (fun g => normalizeName g == normalizeName q1))
        = (l.any (fun g => normalizeName g == normalizeName q2)) := by
    intro l q1 q2 h
    rw [h]
  have hmap : ∀ (l : List String) (q : String),
      (l.any (fun g => normalizeName g == normalizeName q))
        = ((l.map normalizeName).any (fun g => g == normalizeName q)) := by
    intro l q
    rw [List.any_map]
    rfl
  have hconc : normalizeName "Invoice.PDF" = normalizeName " invoice.pdf " := by decide
  refine ⟨?_, ?_, ?_, ?_⟩
  · intro st q1 q2 h
    exact hq st.boringTaxFiles q1 q2 h
  · intro st1 st2 q h
    simp only [isFileInBoringTax]
    rw [hmap, hmap, h]
  · intro st
    exact hq st.boringTaxFiles "Invoice.PDF" " invoice.pdf " hconc
  · intro st
    simp only [isInRemoteSet]
    rw [hconc]

/-- Witness for C4: on a concrete one-element stored list, the two
normalisation-equal queries `"Invoice.PDF"` and `" invoice.pdf "` coincide. -/
theorem c4_witness :
    isFileInBoringTax ⟨"", "", [], ["INVOICE.pdf"], ""⟩ "Invoice.PDF"
      = isFileInBoringTax ⟨"", "", [], ["INVOICE.pdf"], ""⟩ " invoice.pdf " :=
  c4_normalization_invariance.1 ⟨"", "", [], ["INVOICE.pdf"], ""⟩
    "Invoice.PDF" " invoice.pdf " (by decide)

/-! ## C1 -/

/-- C1: at render time the reconciler produces a badge exactly when the
spec's remote-set membership check (normalized membership in
`KnownRemoteFileSet` ∪ locally known transfer filenames, spec §4.2) succeeds
for the filename or a transfer record exists for the email identity, and a
button otherwise; in particular, with `KnownRemoteFileSet = {"a.pdf"}` and
no transfer record, the candidate `("a.pdf", "E1")` renders a badge. -/
theorem c1_badge_iff_remote_or_transferred :
    (∀ (st : StorageState) (fileName emailId : String),
        reconcileOutcome st fileName emailId = RenderOutcome.badge ↔
          (isInRemoteSet st fileName = true
            ∨ (handleCheckStatus st emailId).isTransferred = true))
    ∧ reconcileOutcome ⟨"", "", [], ["a.pdf"], ""⟩ "a.pdf" "E1" = RenderOutcome.badge := by
  constructor
  · intro st fileName emailId
    simp only [reconcileOutcome, statusOutcome, handleCheckStatusByFilename,
      handleCheckStatus, isInRemoteSet, isFileInBoringTax, isFileTransferredByName,
      getTransferredEmail, find?_isSome_eq_any, List.any_append, List.any_map,
      Function.comp]
    rw [ifOutcome_eq_badge]
    simp [Bool.or_eq_true, or_assoc]
  · decide

/-! ## C2 -/

/-- C2: for every PDF candidate that reaches the reconciliation query (not
yet processed, no injected child, classified as PDF, filename not already
carried by an existing upload button, email id extracted), a failing status
round-trip makes `processAttachment` insert exactly one upload button —
never a badge, and never nothing. -/
theorem c2_fail_open_renders_button
    (node : AttachmentNode) (page : List UINode) (hash : String)
    (messageContainer : Option (Option String)) (now : Nat) (err : String)
    (emailId : String)
    (h1 : node.processed = false) (h2 : node.hasInjected = false)
    (h3 : isPdfAttachment node.elem = true)
    (h4 : (existingButtonFilenames page).contains (getAttachmentFileName node.elem) = false)
    (h5 : extractEmailId hash messageContainer now = some emailId) :
    processAttachment node page hash messageContainer now (Except.error err)
      = ({ node with processed := true }, page ++ [createUploadButton node.elem emailId]) := by
  have h4' : getAttachmentFileName node.elem ∉ existingButtonFilenames page := by
    simpa using h4
  simp [processAttachment, h1, h2, h3, h4', h5]

/-- Witness for C2: a concrete unprocessed PDF candidate on an empty page,
with a failing query, gets exactly an upload button. -/
theorem c2_witness :
    processAttachment
        ⟨⟨none, some "Invoice_2024.pdf", none, none, ""⟩, false, false⟩
        [] "" (some (some "M1")) 0 (Except.error "storage unreachable")
      = (⟨⟨none, some "Invoice_2024.pdf", none, none, ""⟩, true, false⟩,
         [createUploadButton ⟨none, some "Invoice_2024.pdf", none, none, ""⟩ "M1"]) :=
  c2_fail_open_renders_button
    ⟨⟨none, some "Invoice_2024.pdf", none, none, ""⟩, false, false⟩
    [] "" (some (some "M1")) 0 "storage unreachable" "M1"
    (by decide) (by decide) (by decide) (by decide) (by decide)

/-! ## C5 -/

/-- C5 (amended): re-scanning inserts no additional UI node for a node that
already carries the processed marker, for a node that already contains an
injected button/badge, or for a node whose extracted filename is already
carried by an existing **upload button** elsewhere on the page.  (The
filename dedup consults only `.grm-upload-btn` nodes; a filename rendered
elsewhere only as a badge is not deduplicated by filename — see the
counterexample.) -/
theorem c5_dedup_idempotent
    (node : AttachmentNode) (page : List UINode) (hash : String)
    (messageContainer : Option (Option String)) (now : Nat)
    (query : Except String (CheckStatusByFilenameResponse × CheckStatusResponse)) :
    (node.processed = true →
        processAttachment node page hash messageContainer now query = (node, page))
    ∧ (node.processed = false → node.hasInjected = true →
        processAttachment node page hash messageContainer now query
          = ({ node with processed := true }, page))
    ∧ (node.processed = false → node.hasInjected = false →
        isPdfAttachment node.elem = true →
        (existingButtonFilenames page).contains (getAttachmentFileName node.elem) = true →
        processAttachment node page hash messageContainer now query
          = ({ node with processed := true }, page)) := by
  refine ⟨?_, ?_, ?_⟩
  · intro h1
    simp [processAttachment, h1]
  · intro h1 h2
    simp [processAttachment, h1, h2]
  · intro h1 h2 h3 h4
    have h4' : getAttachmentFileName node.elem ∈ existingButtonFilenames page := by
      simpa using h4
    simp [processAttachment, h1, h2, h3, h4']

/-- Witness for C5: a node already marked processed is left untouched and
no UI node is added. -/
theorem c5_witness :
    processAttachment ⟨⟨none, some "a.pdf", none, none, ""⟩, true, false⟩
        [] "" none 0 (Except.error "e")
      = (⟨⟨none, some "a.pdf", none, none, ""⟩, true, false⟩, []) :=
  (c5_dedup_idempotent ⟨⟨none, some "a.pdf", none, none, ""⟩, true, false⟩
    [] "" none 0 (Except.error "e")).1 rfl

/-- Counterexample for C5 as stated: filename `"a.pdf"` is already rendered
as a badge (first call), yet processing a second, unmarked node with the
same extracted filename inserts an additional UI node (the page grows from
one to two injected nodes), because the filename dedup looks only at upload
buttons and badges carry no filename attribute. -/
theorem c5_counterexample :
    (processAttachment ⟨⟨none, some "a.pdf", none, none, ""⟩, false, false⟩
        [] "" (some (some "M1")) 0
        (Except.ok (handleCheckStatusByFilename ⟨"", "", [], ["a.pdf"], ""⟩ "a.pdf",
                    handleCheckStatus ⟨"", "", [], ["a.pdf"], ""⟩ "M1"))).2
      = [createStatusBadge none]
    ∧ (processAttachment ⟨⟨none, some "a.pdf", none, none, ""⟩, false, false⟩
        [createStatusBadge none] "" (some (some "M2")) 0
        (Except.ok (handleCheckStatusByFilename ⟨"", "", [], ["a.pdf"], ""⟩ "a.pdf",
                    handleCheckStatus ⟨"", "", [], ["a.pdf"], ""⟩ "M2"))).2
      = [createStatusBadge none, createStatusBadge none] := by
  constructor
  · decide
  · decide

/-! ## C8 -/

/-- C8 (amended): injected upload buttons carry the identity data
attributes `data-filename` (the candidate's extracted filename) and
`data-email-id`; injected status badges carry neither — badge dedup relies
on the node-local processed marker, not on identity attributes. -/
theorem c8_identity_attributes :
    (∀ (a : AttachmentElem) (emailId : String),
        getAttr (createUploadButton a emailId) "data-filename"
            = some (getAttachmentFileName a)
        ∧ getAttr (createUploadButton a emailId) "data-email-id" = some emailId)
    ∧ (∀ d : Option String,
        getAttr (createStatusBadge d) "data-filename" = none
        ∧ getAttr (createStatusBadge d) "data-email-id" = none) := by
  constructor
  · intro a emailId
    constructor <;> simp [getAttr, createUploadButton, List.find?]
  · intro d
    constructor <;> simp [getAttr, createStatusBadge, List.find?]

/-- Counterexample for C8 as stated: a concrete injected status badge
carries neither identity data attribute. -/
theorem c8_counterexample :
    getAttr (createStatusBadge (some "2024-01-01T00:00:00.000Z")) "data-filename" = none
    ∧ getAttr (createStatusBadge (some "2024-01-01T00:00:00.000Z")) "data-email-id" = none := by
  constructor <;> decide

/-! ## C7 -/

/-- C7 (amended): email-identity extraction returns `none` exactly when the
URL fragment does not match the id pattern **and** the message container is
found but its `data-message-id` attribute is absent (the selector also
matches containers carrying only `data-legacy-message-id`); when no
container is found at all, the generated fallback id is returned, and when
the fragment matches, its captured group is returned. -/
theorem c7_email_id_nullability :
    (∀ (hash : String) (messageContainer : Option (Option String)) (now : Nat),
        extractEmailId hash messageContainer now = none ↔
          (matchEmailIdRegex hash = none ∧ messageContainer = some none))
    ∧ (∀ (hash : String) (now : Nat), matchEmailIdRegex hash = none →
        extractEmailId hash none now
          = some ("gmail-" ++ toString now ++ "-" ++ sanitizeHash hash)) := by
  constructor
  · intro hash messageContainer now
    unfold extractEmailId
    cases h : matchEmailIdRegex hash with
    | some id => simp
    | none =>
        cases messageContainer with
        | none => simp
        | some v => cases v <;> simp
  · intro hash now h
    unfold extractEmailId
    rw [h]

/-- Witness for C7: with an unmatched fragment and no container, the
generated fallback id is produced. -/
theorem c7_witness :
    extractEmailId "#inbox" none 42 = some ("gmail-" ++ toString 42 ++ "-" ++ sanitizeHash "#inbox") :=
  c7_email_id_nullability.2 "#inbox" 42 (by decide)

/-- Counterexample for C7 as stated: with an empty URL fragment and a
message container matched only via `data-legacy-message-id` (so its
`data-message-id` is absent), `extractEmailId` returns `none` — the
null-result branch is reachable, contradicting the claimed totality. -/
theorem c7_counterexample :
    extractEmailId "" (some none) 0 = none := by
  decide

/-! ## C3 -/

/-- The transfer-history invariant: at most one record per `emailIdentity`
(pairwise distinct `emailId` fields). -/
def distinctIds (l : List TransferredEmail) : Prop :=
  l.Pairwise (fun a b => a.emailId ≠ b.emailId)

/-- Upsert on the empty history appends. -/
theorem addTransferredEmail_nil (e : TransferredEmail) :
    addTransferredEmail [] e = [e] := by
  rfl

/-- Upsert replaces the head when the head's id matches. -/
theorem addTransferredEmail_cons_eq (x : TransferredEmail) (l : List TransferredEmail)
    (e : TransferredEmail) (h : (x.emailId == e.emailId) = true) :
    addTransferredEmail (x :: l) e = e :: l := by
  simp [addTransferredEmail, List.findIdx?_cons, h]

/-- Upsert skips the head when the head's id differs. -/
theorem addTransferredEmail_cons_ne (x : TransferredEmail) (l : List TransferredEmail)
    (e : TransferredEmail) (h : (x.emailId == e.emailId) = false) :
    addTransferredEmail (x :: l) e = x :: addTransferredEmail l e := by
  simp only [addTransferredEmail, List.findIdx?_cons, h, List.findIdx?_succ,
    Bool.false_eq_true, if_false]
  cases h2 : l.findIdx? (fun y => y.emailId == e.emailId) with
  | some i => simp
  | none => simp

/-- Each member of an upserted history was already there or is the new
record. -/
theorem mem_addTransferredEmail (l : List TransferredEmail) (e y : TransferredEmail)
    (h : y ∈ addTransferredEmail l e) : y ∈ l ∨ y = e := by
  induction l with
  | nil =>
      rw [addTransferredEmail_nil] at h
      simp at h
      exact Or.inr h
  | cons x xs ih =>
      cases hx : x.emailId == e.emailId with
      | true =>
          rw [addTransferredEmail_cons_eq x xs e hx] at h
          rcases List.mem_cons.mp h with h1 | h1
          · exact Or.inr h1
          · exact Or.inl (List.mem_cons_of_mem x h1)
      | false =>
          rw [addTransferredEmail_cons_ne x xs e hx] at h
          rcases List.mem_cons.mp h with h1 | h1
          · exact Or.inl (h1 ▸ List.mem_cons_self x xs)
          · rcases ih h1 with h2 | h2
            · exact Or.inl (List.mem_cons_of_mem x h2)
            · exact Or.inr h2

/-- Upsert preserves the at-most-one-record-per-id invariant. -/
theorem distinctIds_addTransferredEmail (l : List TransferredEmail)
    (e : TransferredEmail) (h : distinctIds l) :
    distinctIds (addTransferredEmail l e) := by
  induction l with
  | nil =>
      rw [addTransferredEmail_nil]
      exact List.pairwise_singleton _ _
  | cons x xs ih =>
      simp only [distinctIds, List.pairwise_cons] at h
      cases hx : x.emailId == e.emailId with
      | true =>
          rw [addTransferredEmail_cons_eq x xs e hx]
          rw [distinctIds, List.pairwise_cons]
          refine ⟨?_, h.2⟩
          intro y hy
          have hxe : x.emailId = e.emailId := by
            exact eq_of_beq hx
          rw [← hxe]
          exact h.1 y hy
      | false =>
          rw [addTransferredEmail_cons_ne x xs e hx]
          rw [distinctIds, List.pairwise_cons]
          refine ⟨?_, ih h.2⟩
          intro y hy
          rcases mem_addTransferredEmail xs e y hy with h2 | h2
          · exact h.1 y h2
          · rw [h2]
            intro hcontra
            rw [hcontra] at hx
            simp at hx

/-- Filtering an id absent from the history yields nothing. -/
theorem filter_id_eq_nil (l : List TransferredEmail) (id : String)
    (h : ∀ y ∈ l, y.emailId ≠ id) :
    l.filter (fun x => x.emailId == id) = [] := by
  induction l with
  | nil => rfl
  | cons x xs ih =>
      rw [List.filter_cons]
      have hx : (x.emailId == id) = false := by
        cases hb : x.emailId == id with
        | true => exact absurd (eq_of_beq hb) (h x (List.mem_cons_self x xs))
        | false => rfl
      rw [hx]
      simp only [Bool.false_eq_true, if_false]
      exact ih (fun y hy => h y (List.mem_cons_of_mem x hy))

/-- On a history satisfying the invariant, the records carrying the
upserted id after an upsert are exactly the new record. -/
theorem filter_addTransferredEmail (l : List TransferredEmail) (e : TransferredEmail)
    (h : distinctIds l) :
    (addTransferredEmail l e).filter (fun x => x.emailId == e.emailId) = [e] := by
  induction l with
  | nil =>
      rw [addTransferredEmail_nil]
      simp [List.filter]
  | cons x xs ih =>
      simp only [distinctIds, List.pairwise_cons] at h
      cases hx : x.emailId == e.emailId with
      | true =>
          rw [addTransferredEmail_cons_eq x xs e hx]
          rw [List.filter_cons]
          simp only [beq_self_eq_true, if_true]
          have : xs.filter (fun x => x.emailId == e.emailId) = [] := by
            refine filter_id_eq_nil xs e.emailId ?_
            intro y hy
            have hxe : x.emailId = e.emailId := eq_of_beq hx
            have := h.1 y hy
            rw [hxe] at this
            exact fun hc => this hc.symm
          rw [this]
      | false =>
          rw [addTransferredEmail_cons_ne x xs e hx]
          rw [List.filter_cons, hx]
          simp only [Bool.false_eq_true, if_false]
          exact ih h.2

/-- C3: the history invariant (at most one record per `emailIdentity`) is
preserved by every mark-transferred upsert, and on any history satisfying
it, two upserts with the same `emailIdentity` leave exactly one record for
that identity, carrying the second call's `fileName`. -/
theorem c3_upsert_invariant :
    (∀ (l : List TransferredEmail) (e : TransferredEmail),
        distinctIds l → distinctIds (addTransferredEmail l e))
    ∧ (∀ (l : List TransferredEmail) (e1 e2 : TransferredEmail),
        distinctIds l → e1.emailId = e2.emailId →
        (addTransferredEmail (addTransferredEmail l e1) e2).filter
            (fun x => x.emailId == e2.emailId) = [e2]) := by
  constructor
  · exact distinctIds_addTransferredEmail
  · intro l e1 e2 h hid
    exact filter_addTransferredEmail (addTransferredEmail l e1) e2
      (distinctIds_addTransferredEmail l e1 h)

/-- Witness for C3: two upserts for email `"E"` with filenames `"f1.pdf"`
then `"f2.pdf"` leave exactly one record for `"E"`, with `"f2.pdf"`. -/
theorem c3_witness :
    (addTransferredEmail
        (addTransferredEmail ([] : List TransferredEmail)
          ⟨"E", "f1.pdf", "id1", "2024-01-01", none⟩)
        ⟨"E", "f2.pdf", "id2", "2024-01-02", none⟩).filter
      (fun x => x.emailId == (⟨"E", "f2.pdf", "id2", "2024-01-02", none⟩ :
          TransferredEmail).emailId)
      = [⟨"E", "f2.pdf", "id2", "2024-01-02", none⟩] :=
  c3_upsert_invariant.2 [] ⟨"E", "f1.pdf", "id1", "2024-01-01", none⟩
    ⟨"E", "f2.pdf", "id2", "2024-01-02", none⟩ (by simp [distinctIds]) rfl

/-! ## C6 -/

/-- Membership through the dedup fold: an element is in the fold result
exactly when it is in the accumulator or in the remaining input. -/
theorem mem_dedupJs_go (l : List String) :
    ∀ (acc : List String) (x : String),
      (x ∈ l.foldl (fun acc x => if acc.contains x then acc else acc ++ [x]) acc)
        ↔ (x ∈ acc ∨ x ∈ l) := by
  induction l with
  | nil => intro acc x; simp
  | cons a as ih =>
      intro acc x
      simp only [List.foldl_cons]
      by_cases ha : acc.contains a
      · rw [if_pos ha]
        rw [ih acc x]
        constructor
        · rintro (h | h)
          · exact Or.inl h
          · exact Or.inr (List.mem_cons_of_mem a h)
        · rintro (h | h)
          · exact Or.inl h
          · rcases List.mem_cons.mp h with h | h
            · subst h
              exact Or.inl (by simpa using ha)
            · exact Or.inr h
      · rw [if_neg ha]
        rw [ih (acc ++ [a]) x]
        simp only [List.mem_append, List.mem_singleton, List.mem_cons]
        tauto

/-- Dedup preserves membership. -/
theorem mem_dedupJs (l : List String) (x : String) :
    x ∈ dedupJs l ↔ x ∈ l := by
  rw [dedupJs, mem_dedupJs_go]
  simp

/-- The dedup fold keeps the accumulator duplicate-free. -/
theorem nodup_dedupJs_go (l : List String) :
    ∀ acc : List String, acc.Nodup →
      (l.foldl (fun acc x => if acc.contains x then acc else acc ++ [x]) acc).Nodup := by
  induction l with
  | nil => intro acc h; simpa using h
  | cons a as ih =>
      intro acc h
      simp only [List.foldl_cons]
      by_cases ha : acc.contains a
      · rw [if_pos ha]
        exact ih acc h
      · rw [if_neg ha]
        refine ih (acc ++ [a]) ?_
        rw [List.nodup_append]
        refine ⟨h, List.nodup_singleton a, ?_⟩
        intro y hy
        simp only [List.mem_singleton]
        intro hya
        subst hya
        exact ha (by simpa using hy)

/-- Dedup produces a duplicate-free list. -/
theorem nodup_dedupJs (l : List String) : (dedupJs l).Nodup :=
  nodup_dedupJs_go l [] List.nodup_nil

/-- C6: a successful sync (configured backend) replaces the stored
known-remote-file list wholesale with a duplicate-free list whose members
are exactly the union of the remote listing and the fileNames of the stored
transfer records; in particular every locally transferred filename is in
the stored list after the sync, even when the remote listing omits it.
`history` is the sorted history read back from storage, a permutation of
the stored records. -/
theorem c6_sync_union
    (st : StorageState) (remoteFileNames : List String)
    (history : List TransferredEmail) (now : String)
    (hconf : isConfigured st = true)
    (hperm : List.Perm history st.transferredEmails) :
    (handleSyncBoringTaxFiles st remoteFileNames history now).1.success = true
    ∧ ((handleSyncBoringTaxFiles st remoteFileNames history now).2.boringTaxFiles).Nodup
    ∧ (∀ x : String,
        x ∈ (handleSyncBoringTaxFiles st remoteFileNames history now).2.boringTaxFiles
          ↔ (x ∈ remoteFileNames
              ∨ ∃ e ∈ st.transferredEmails, e.fileName = x))
    ∧ (∀ e ∈ st.transferredEmails,
        e.fileName ∈ (handleSyncBoringTaxFiles st remoteFileNames history now).2.boringTaxFiles)
    ∧ (handleSyncBoringTaxFiles st remoteFileNames history now).2.transferredEmails
        = st.transferredEmails := by
  have hmemmap : ∀ x : String, x ∈ history.map (fun e => e.fileName)
      ↔ ∃ e ∈ st.transferredEmails, e.fileName = x := by
    intro x
    rw [List.mem_map]
    constructor
    · rintro ⟨e, he, rfl⟩
      exact ⟨e, hperm.mem_iff.mp he, rfl⟩
    · rintro ⟨e, he, rfl⟩
      exact ⟨e, hperm.mem_iff.mpr he, rfl⟩
  simp only [handleSyncBoringTaxFiles, hconf, if_true]
  refine ⟨trivial, nodup_dedupJs _, ?_, ?_, trivial⟩
  · intro x
    rw [mem_dedupJs, List.mem_append, hmemmap]
  · intro e he
    rw [mem_dedupJs, List.mem_append]
    exact Or.inr (List.mem_map.mpr ⟨e, hperm.mem_iff.mpr he, rfl⟩)

/-- Witness for C6: with a configured backend, a remote listing that omits
the locally transferred `"local.pdf"` still leaves `"local.pdf"` in the
stored file list after the sync. -/
theorem c6_witness :
    "local.pdf" ∈ (handleSyncBoringTaxFiles
        ⟨"key", "org", [⟨"E1", "local.pdf", "id9", "2024-01-01", none⟩], ["stale.pdf"], ""⟩
        ["remote.pdf"]
        [⟨"E1", "local.pdf", "id9", "2024-01-01", none⟩]
        "2024-02-02").2.boringTaxFiles := by
  exact (c6_sync_union
      ⟨"key", "org", [⟨"E1", "local.pdf", "id9", "2024-01-01", none⟩], ["stale.pdf"], ""⟩
      ["remote.pdf"]
      [⟨"E1", "local.pdf", "id9", "2024-01-01", none⟩]
      "2024-02-02" (by decide) (List.Perm.refl _)).2.2.2.1
    ⟨"E1", "local.pdf", "id9", "2024-01-01", none⟩ (by decide)

/-! ## C9 -/

/-- Case-insensitive `.pdf` occurrence: the common over-approximation of
all five scanner signals ("the signal contains `.pdf`"). -/
def containsPdfCI (s : String) : Bool :=
  hasSubList ".pdf".data (lowerStr s).data

/-- A list starts with itself followed by anything. -/
theorem startsWithList_append_self (p : List Char) :
    ∀ b : List Char, startsWithList p (p ++ b) = true := by
  induction p with
  | nil => intro b; rfl
  | cons x xs ih => intro b; simp [startsWithList, ih b]

/-- A match at the head is an occurrence. -/
theorem hasSubList_here (p t : List Char) (h : startsWithList p t = true) :
    hasSubList p t = true := by
  cases t with
  | nil => simpa [hasSubList] using h
  | cons c ts => simp [hasSubList, h]

/-- Occurrences survive prepending a character. -/
theorem hasSubList_cons (p : List Char) (c : Char) (ts : List Char)
    (h : hasSubList p ts = true) : hasSubList p (c :: ts) = true := by
  simp [hasSubList, h]

/-- Occurrences survive prepending a list. -/
theorem hasSubList_append_left (p a t : List Char) (h : hasSubList p t = true) :
    hasSubList p (a ++ t) = true := by
  induction a with
  | nil => simpa using h
  | cons x xs ih => simpa [List.cons_append] using hasSubList_cons p x (xs ++ t) ih

/-- An explicit decomposition is an occurrence. -/
theorem hasSubList_of_decomp (p a b : List Char) :
    hasSubList p (a ++ (p ++ b)) = true :=
  hasSubList_append_left p a (p ++ b)
    (hasSubList_here p (p ++ b) (startsWithList_append_self p b))

/-- Head matches are preserved by mapping both lists. -/
theorem startsWithList_map (f : Char → Char) :
    ∀ (p t : List Char), startsWithList p t = true →
      startsWithList (p.map f) (t.map f) = true := by
  intro p
  induction p with
  | nil => intro t h; rfl
  | cons x xs ih =>
      intro t h
      cases t with
      | nil => simp [startsWithList] at h
      | cons y ys =>
          simp only [startsWithList, Bool.and_eq_true, beq_iff_eq] at h
          simp only [List.map, startsWithList, Bool.and_eq_true, beq_iff_eq]
          exact ⟨by rw [h.1], ih ys h.2⟩

/-- Occurrences are preserved by mapping both lists. -/
theorem hasSubList_map (f : Char → Char) (p : List Char) :
    ∀ t : List Char, hasSubList p t = true →
      hasSubList (p.map f) (t.map f) = true := by
  intro t
  induction t with
  | nil =>
      intro h
      cases p with
      | nil => rfl
      | cons x xs => simp [hasSubList, startsWithList] at h
  | cons c ts ih =>
      intro h
      have h' : startsWithList p (c :: ts) = true ∨ hasSubList p ts = true := by
        simpa [hasSubList] using h
      rcases h' with h1 | h1
      · exact hasSubList_here _ _ (startsWithList_map f p (c :: ts) h1)
      · exact hasSubList_cons _ _ _ (ih h1)

/-- Shape of a position where the regex suffix literal matches. -/
theorem hasPdfAt_decomp (u : List Char) (h : hasPdfAt u = true) :
    ∃ c1 c2 c3 t, u = '.' :: c1 :: c2 :: c3 :: t
      ∧ c1.toLower = 'p' ∧ c2.toLower = 'd' ∧ c3.toLower = 'f' := by
  match u with
  | [] => simp [hasPdfAt] at h
  | [a] => simp [hasPdfAt] at h
  | [a, b] => simp [hasPdfAt] at h
  | [a, b, c] => simp [hasPdfAt] at h
  | a :: b :: c :: d :: t =>
      simp only [hasPdfAt, Bool.and_eq_true, beq_iff_eq] at h
      exact ⟨b, c, d, t, by rw [h.1.1.1], h.1.1.2, h.1.2, h.2⟩

/-- Soundness of the filename-regex matcher: a successful match implies a
case-insensitive `.pdf` occurrence in the scanned text. -/
theorem pdfMatch_hasSub (l : List Char) (m : List Char)
    (h : pdfMatch l = some m) :
    hasSubList ".pdf".data (l.map Char.toLower) = true := by
  induction l with
  | nil => simp [pdfMatch] at h
  | cons c rest ih =>
      rw [pdfMatch] at h
      cases hm : matchPdfAt (c :: rest) with
      | none =>
          rw [hm] at h
          exact hasSubList_cons _ _ _ (ih h)
      | some m2 =>
          clear h
          rw [matchPdfAt] at hm
          cases hg : greedyJ ((c :: rest).takeWhile isPdfNameChar) with
          | none => rw [hg] at hm; simp at hm
          | some j =>
              rw [greedyJ] at hg
              have hp := List.find?_some hg
              have hpdf : hasPdfAt (((c :: rest).takeWhile isPdfNameChar).drop j) = true := by
                have hp2 := hp
                simp only [Bool.and_eq_true] at hp2
                exact hp2.2
              obtain ⟨c1, c2, c3, t, hshape, h1, h2, h3⟩ := hasPdfAt_decomp _ hpdf
              have hdecomp : c :: rest
                  = (((c :: rest).takeWhile isPdfNameChar).take j
                      ++ ('.' :: c1 :: c2 :: c3 :: t))
                    ++ (c :: rest).dropWhile isPdfNameChar := by
                rw [← hshape, List.take_append_drop,
                  List.takeWhile_append_dropWhile]
              have hmap : (c :: rest).map Char.toLower
                  = (((c :: rest).takeWhile isPdfNameChar).take j).map Char.toLower
                    ++ (".pdf".data
                      ++ (t.map Char.toLower
                        ++ ((c :: rest).dropWhile isPdfNameChar).map Char.toLower)) := by
                conv_lhs => rw [hdecomp]
                have hdot : Char.toLower '.' = '.' := by decide
                simp [List.map_append, hdot, h1, h2, h3]
              rw [hmap]
              exact hasSubList_of_decomp _ _ _

/-- Without a case-insensitive `.pdf` occurrence there is no case-sensitive
`includes('.pdf')` hit. -/
theorem strIncludes_pdf_eq_false (s : String) (h : containsPdfCI s = false) :
    strIncludes s ".pdf" = false := by
  cases hb : strIncludes s ".pdf" with
  | false => rfl
  | true =>
      exfalso
      have hmap := hasSubList_map Char.toLower ".pdf".data s.data hb
      have hpat : ".pdf".data.map Char.toLower = ".pdf".data := by decide
      rw [hpat] at hmap
      rw [containsPdfCI] at h
      have hlow : (lowerStr s).data = s.data.map Char.toLower := rfl
      rw [hlow] at h
      rw [hmap] at h
      exact Bool.true_eq_false.mp h

/-- Without a case-insensitive `.pdf` occurrence the regex scan fails. -/
theorem pdfMatch_eq_none (s : String) (h : containsPdfCI s = false) :
    pdfMatch s.data = none := by
  cases hm : pdfMatch s.data with
  | none => rfl
  | some m =>
      exfalso
      have hsub := pdfMatch_hasSub s.data m hm
      rw [containsPdfCI] at h
      have hlow : (lowerStr s).data = s.data.map Char.toLower := rfl
      rw [hlow] at h
      rw [hsub] at h
      exact Bool.true_eq_false.mp h

/-- C9 (amended): filename extraction never fails — a candidate whose
tooltip is `"Invoice_2024.pdf"` and which exposes no other signal yields
that filename with `isPdf = true`, and every element none of whose five
signals contains `.pdf` (case-insensitively) yields the constant
placeholder `"document.pdf"`.  The extraction cascade is name text,
tooltip, title, **aria-label, then raw-text regex scan**, which differs
from PDF classification's order (raw text before aria-label) in its last
two steps — see the counterexample. -/
theorem c9_filename_extraction :
    (getAttachmentFileName ⟨none, some "Invoice_2024.pdf", none, none, ""⟩
        = "Invoice_2024.pdf"
      ∧ isPdfAttachment ⟨none, some "Invoice_2024.pdf", none, none, ""⟩ = true)
    ∧ (∀ a : AttachmentElem,
        containsPdfCI (a.nameText.getD "") = false →
        containsPdfCI (a.tooltip.getD "") = false →
        containsPdfCI (a.title.getD "") = false →
        containsPdfCI (a.ariaLabel.getD "") = false →
        containsPdfCI a.textContent = false →
        getAttachmentFileName a = "document.pdf") := by
  constructor
  · constructor
    · decide
    · decide
  · intro a h1 h2 h3 h4 h5
    have hsig : ∀ o : Option String, containsPdfCI (o.getD "") = false →
        optHasPdf o = false := by
      intro o ho
      cases o with
      | none => rfl
      | some t =>
          simp only [Option.getD] at ho
          exact strIncludes_pdf_eq_false t ho
    rw [getAttachmentFileName]
    rw [hsig a.nameText h1, hsig a.tooltip h2, hsig a.title h3, hsig a.ariaLabel h4]
    simp only [Bool.false_eq_true, if_false]
    rw [pdfMatch_eq_none a.textContent h5]

/-- Witness for C9: an element with no `.pdf` in any signal yields the
placeholder filename. -/
theorem c9_witness :
    getAttachmentFileName ⟨none, none, none, none, "hello world"⟩ = "document.pdf" :=
  c9_filename_extraction.2 ⟨none, none, none, none, "hello world"⟩
    (by decide) (by decide) (by decide) (by decide) (by decide)

/-- Counterexample for C9 as stated: on an element whose aria-label is
`"a.pdf"` and whose raw text is `"b.pdf"`, the source's extraction returns
`"a.pdf"` (aria-label before raw text) while extraction in the PDF
classification's cascade order would return `"b.pdf"` (raw text before
aria-label) — the two cascades are not in the same order. -/
theorem c9_counterexample :
    getAttachmentFileName ⟨none, none, none, some "a.pdf", "b.pdf"⟩
      ≠ fileNameInClassificationOrder ⟨none, none, none, some "a.pdf", "b.pdf"⟩ := by
  decide

end GRM
